import Mathlib

/-!
Verification of the MovieQuest poster text-removal pipeline.

Shallow embedding of `src/movieQuest/image_processor.py` and the
`/processed-poster/<poster_id>` route of `src/movieQuest/app.py`.
Effectful primitives (HTTP fetch, image decoding, the OCR engine, and
`cv2.inpaint`, which may each raise an exception) are supplied through an
environment record whose fields return `Option` values; `none` models the
Python exception/`None` outcome.  Pure geometry (the mask builder) is
translated directly from the source.
-/

/-- Raw encoded image bytes (the body of an HTTP response or a cache file). -/
abbrev Bytes := List Nat

/-- A decoded 3-channel raster (`numpy` BGR array): width, height, and the
pixel buffer as a function from integer coordinates to a packed pixel value. -/
structure Raster where
  width : Int
  height : Int
  pix : Int → Int → Nat

/-- An OCR quadrilateral: the 4 corner points returned by
`easyocr.readtext` for one region, after `np.array(bbox).astype(int)`. -/
structure Quad where
  p1 : Int × Int
  p2 : Int × Int
  p3 : Int × Int
  p4 : Int × Int

/-- `bbox[:, 0].min()` over the four points. -/
def Quad.xLo (q : Quad) : Int := min (min q.p1.1 q.p2.1) (min q.p3.1 q.p4.1)

/-- `bbox[:, 0].max()` over the four points. -/
def Quad.xHi (q : Quad) : Int := max (max q.p1.1 q.p2.1) (max q.p3.1 q.p4.1)

/-- `bbox[:, 1].min()` over the four points. -/
def Quad.yLo (q : Quad) : Int := min (min q.p1.2 q.p2.2) (min q.p3.2 q.p4.2)

/-- `bbox[:, 1].max()` over the four points. -/
def Quad.yHi (q : Quad) : Int := max (max q.p1.2 q.p2.2) (max q.p3.2 q.p4.2)

/-- One `easyocr` detection: `(bbox, text, confidence)`. -/
structure Detection where
  quad : Quad
  text : String
  confidence : Rat

/-- An axis-aligned rectangle as passed to `cv2.rectangle` (two corner
points; the source calls the corner coordinates x_min/y_min/x_max/y_max). -/
structure Rect where
  xMin : Int
  yMin : Int
  xMax : Int
  yMax : Int

/-- Lines 71-82 of `image_processor.py`: the axis-aligned bounding rectangle
of the quadrilateral, clamped to the image shape, then expanded by the fixed
padding of 5 and clamped again.  `W = img.shape[1]`, `H = img.shape[0]`. -/
def clampedRect (W H : Int) (q : Quad) : Rect :=
  let x0 := max 0 q.xLo
  let y0 := max 0 q.yLo
  let x1 := min W q.xHi
  let y1 := min H q.yHi
  { xMin := max 0 (x0 - 5), yMin := max 0 (y0 - 5),
    xMax := min W (x1 + 5), yMax := min H (y1 + 5) }

/-- Pixels painted by `cv2.rectangle(mask, (x_min, y_min), (x_max, y_max),
255, -1)`: OpenCV fills the convex hull of the four corner points (so the
two given corners are normalized regardless of order), the fill is inclusive
of both corners, and drawing is clipped to the image. -/
def fillsPixel (W H : Int) (r : Rect) (x y : Int) : Bool :=
  max 0 (min r.xMin r.xMax) ≤ x && x ≤ min (W - 1) (max r.xMin r.xMax) &&
  max 0 (min r.yMin r.yMax) ≤ y && y ≤ min (H - 1) (max r.yMin r.yMax)

/-- Line 68 of `image_processor.py`: `if confidence > 0.3`, with the
threshold abstracted as a parameter (the source hard-codes `0.3`). -/
def acceptedDet (t : Rat) (d : Detection) : Bool := t < d.confidence

/-- One iteration of the detection loop (lines 64-87): mask accumulator and
`inpaint_count`. -/
def maskStep (W H : Int) (t : Rat) (acc : (Int → Int → Nat) × Nat) (d : Detection) :
    (Int → Int → Nat) × Nat :=
  if acceptedDet t d then
    ((fun x y => if fillsPixel W H (clampedRect W H d.quad) x y then 255 else acc.1 x y),
     acc.2 + 1)
  else acc

/-- Lines 49-87 of `image_processor.py`: start from the all-zero mask and
`inpaint_count = 0` and run the detection loop; returns the final mask and
`inpaint_count`. -/
def buildMask (W H : Int) (t : Rat) (dets : List Detection) : (Int → Int → Nat) × Nat :=
  dets.foldl (maskStep W H t) ((fun _ _ => 0), 0)

/-- Outcomes of the effectful stages of `detect_and_blur_text`.  Each field
models one library call that can raise: `fetch` is `requests.get` +
`raise_for_status` at the given URL, `decode` is `Image.open` +
`cv2.cvtColor`, `detect` is `reader.readtext`, `inpaint` is `cv2.inpaint`
(raster, mask, `inpaintRadius`), and `refetch` is the second `requests.get`
performed inside the `except` handler. -/
structure PipelineEnv where
  fetch : Option Bytes
  decode : Bytes → Option Raster
  detect : Raster → Option (List Detection)
  inpaint : Raster → (Int → Int → Nat) → Nat → Option Raster
  refetch : Option Bytes

/-- The `try` body of `detect_and_blur_text` (lines 31-98): fetch, decode,
detect, build the mask with threshold 0.3, and inpaint with radius 7 only
when `inpaint_count > 0`; `none` models an exception escaping the body.
The second argument mirrors the unused `blur_strength` parameter. -/
def pipelineBody (env : PipelineEnv) (blur : Nat) : Option Raster :=
  match env.fetch with
  | none => none
  | some bs =>
    match env.decode bs with
    | none => none
    | some img =>
      match env.detect img with
      | none => none
      | some dets =>
        let m := buildMask img.width img.height (3 / 10) dets
        if 0 < m.2 then env.inpaint img m.1 7 else some img

/-- The `except` handler of `detect_and_blur_text` (lines 100-108): re-fetch
the URL and decode, returning the original undecorated raster; any failure
inside the handler yields `None` (here `none`).  No detection or inpainting
happens on this path. -/
def exceptFallback (env : PipelineEnv) : Option Raster :=
  match env.refetch with
  | none => none
  | some bs => env.decode bs

/-- `detect_and_blur_text(image_url, blur_strength)` (lines 20-108): run the
`try` body; on any exception fall back to re-fetching the original. -/
def detect_and_blur_text (env : PipelineEnv) (blur : Nat) : Option Raster :=
  match pipelineBody env blur with
  | some r => some r
  | none => exceptFallback env

/-- Lines 64-87 preserve `inpaint_count`: the fold adds one per accepted
detection on top of the accumulator. -/
lemma foldl_maskStep_count (W H : Int) (t : Rat) :
    ∀ (dets : List Detection) (acc : (Int → Int → Nat) × Nat),
      (dets.foldl (maskStep W H t) acc).2 = acc.2 + (dets.filter (acceptedDet t)).length := by
  intro dets
  induction dets with
  | nil => intro acc; simp
  | cons d ds ih =>
    intro acc
    rw [List.foldl_cons, ih]
    by_cases h : acceptedDet t d
    · simp [maskStep, h, List.filter_cons]
      omega
    · simp [maskStep, h, List.filter_cons]

/-- Lines 64-87: the mask after the fold is 255 at a pixel the loop painted
and otherwise keeps the accumulator value. -/
lemma foldl_maskStep_mask (W H : Int) (t : Rat) (x y : Int) :
    ∀ (dets : List Detection) (acc : (Int → Int → Nat) × Nat),
      (dets.foldl (maskStep W H t) acc).1 x y =
        if dets.any (fun d => acceptedDet t d && fillsPixel W H (clampedRect W H d.quad) x y)
        then 255 else acc.1 x y := by
  intro dets
  induction dets with
  | nil => intro acc; simp
  | cons d ds ih =>
    intro acc
    rw [List.foldl_cons, ih]
    by_cases ha : acceptedDet t d
    · by_cases hf : fillsPixel W H (clampedRect W H d.quad) x y
      · simp [maskStep, ha, hf]
      · simp [maskStep, ha, hf]
    · simp [maskStep, ha]

/-- Skipped detections leave the accumulator unchanged, so folding over the
filtered list gives the same result. -/
lemma foldl_maskStep_filter (W H : Int) (t : Rat) :
    ∀ (dets : List Detection) (acc : (Int → Int → Nat) × Nat),
      dets.foldl (maskStep W H t) acc = (dets.filter (acceptedDet t)).foldl (maskStep W H t) acc := by
  intro dets
  induction dets with
  | nil => intro acc; simp
  | cons d ds ih =>
    intro acc
    by_cases h : acceptedDet t d
    · rw [List.foldl_cons, List.filter_cons_of_pos h, List.foldl_cons, ih]
    · rw [List.foldl_cons, List.filter_cons_of_neg (by simp [h]), ih]
      congr 1
      simp [maskStep, h]

/-- Modelled from the spec: `cv2.inpaint(img, mask, inpaintRadius, INPAINT_TELEA)`
is an external OpenCV primitive whose implementation is not part of this
repository.  Per the spec (§4.4) it reconstructs every masked pixel from
surrounding unmasked texture within the given radius and passes unmasked
pixels through unchanged.  Here the reconstruction of a masked pixel is the
average of the in-bounds unmasked pixels in the Chebyshev window of the
given radius (a computable stand-in for the fast-marching fill). -/
def windowOffsets (radius : Nat) : List Int :=
  (List.range (2 * radius + 1)).map (fun i => (i : Int) - radius)

/-- The in-bounds unmasked pixel values in the radius window around `(x, y)`,
used by the modelled Telea fill. -/
def neighborValues (img : Raster) (mask : Int → Int → Nat) (radius : Nat) (x y : Int) :
    List Nat :=
  (windowOffsets radius).flatMap (fun dy =>
    (windowOffsets radius).filterMap (fun dx =>
      let a := x + dx
      let b := y + dy
      if 0 ≤ a ∧ a < img.width ∧ 0 ≤ b ∧ b < img.height ∧ mask a b = 0
      then some (img.pix a b) else none))

/-- The fill value for one masked pixel in the modelled Telea inpainting. -/
def reconstructPixel (img : Raster) (mask : Int → Int → Nat) (radius : Nat) (x y : Int) : Nat :=
  let vs := neighborValues img mask radius x y
  if vs.length = 0 then img.pix x y else vs.sum / vs.length

/-- Modelled from the spec: the Inpainter contract of §4.4 — same dimensions
as the input, masked pixels reconstructed from unmasked surroundings,
unmasked pixels copied through. -/
def inpaintTelea (img : Raster) (mask : Int → Int → Nat) (radius : Nat) : Raster :=
  { width := img.width, height := img.height,
    pix := fun x y =>
      if mask x y = 0 then img.pix x y else reconstructPixel img mask radius x y }

/-- Path separator used by the cache paths. -/
def slash : String := "/"

/-- `os.path.dirname`: everything before the last path separator. -/
def dirnameOf (p : String) : String :=
  String.intercalate slash ((p.splitOn slash).dropLast)

/-- The filesystem as seen by `save_processed_image`: the set of created
directories and the files, each holding encoded bytes. -/
structure FS where
  dirs : List String
  files : String → Option Bytes

/-- Outcome of `cv2.imwrite(output_path, image_array)`: `some bytes` when the
encoder succeeds and writes the file, `none` when it returns `False`. -/
structure SaveEnv where
  imwrite : String → Raster → Option Bytes

/-- `save_processed_image(image_array, output_path)` (lines 111-142 of
`image_processor.py`): with a `None` image, fall through to `return False`;
otherwise `os.makedirs(os.path.dirname(output_path), exist_ok=True)`, then
`cv2.imwrite`; on success the file exists and the function returns `True`,
on encoder failure it returns `False`. -/
def save_processed_image (env : SaveEnv) (fs : FS) (image : Option Raster)
    (output_path : String) : Bool × FS :=
  match image with
  | none => (false, fs)
  | some img =>
    let fs1 : FS := { fs with dirs := dirnameOf output_path :: fs.dirs }
    match env.imwrite output_path img with
    | some bs =>
      (true, { fs1 with files := fun p => if p = output_path then some bs else fs1.files p })
    | none => (false, fs1)

/-- The `movie_q` session entry as read by `get_processed_poster`. -/
structure MovieQ where
  poster_id : String
  poster_url : String

/-- Server-side state touched by `get_processed_poster`: the
`static/processed_images` directory, keyed by `poster_id` (the file
`<poster_id>.jpg`). -/
structure AppState where
  cache : String → Option Bytes

/-- One request to `/processed-poster/<poster_id>` together with the
requesting client's session. -/
structure PosterRequest where
  session : Option MovieQ
  poster_id : String

/-- The collaborators of the route: the whole `detect_and_blur_text`
pipeline for a URL, and the JPEG encoding performed by
`save_processed_image` (`none` models a failed save, after which
`send_file` on the missing path raises and the handler redirects). -/
structure AppEnv where
  pipeline : String → Option Raster
  encode : Raster → Option Bytes

/-- HTTP responses the route can produce. -/
inductive PosterResponse where
  | sendFile (b : Bytes)
  | redirect (url : String)
  | notFound
  deriving DecidableEq

/-- `get_processed_poster(poster_id)` (lines 212-265 of `app.py`).  Returns
the response, the new state, and the number of times the processing
pipeline (network fetch + OCR + inpainting) was invoked.  Branches, in
source order: cache hit → `send_file`; no session → 404; session id match
with a truthy URL → process, save, serve (a failed save or failed
processing falls back to redirecting to the original URL, the failed-save
case via the `except` handler); id mismatch → redirect to the session URL. -/
def get_processed_poster (env : AppEnv) (st : AppState) (req : PosterRequest) :
    PosterResponse × AppState × Nat :=
  match st.cache req.poster_id with
  | some b => (.sendFile b, st, 0)
  | none =>
    match req.session with
    | none => (.notFound, st, 0)
    | some q =>
      if q.poster_id = req.poster_id ∧ q.poster_url ≠ "" then
        match env.pipeline q.poster_url with
        | some img =>
          match env.encode img with
          | some bs =>
            (.sendFile bs,
             { cache := fun k => if k = req.poster_id then some bs else st.cache k }, 1)
          | none => (.redirect q.poster_url, st, 1)
        | none => (.redirect q.poster_url, st, 1)
      else (.redirect q.poster_url, st, 0)

/-- A sequence of requests against the route, threading the cache state. -/
def runRequests (env : AppEnv) (st : AppState) (reqs : List PosterRequest) : AppState :=
  reqs.foldl (fun s r => (get_processed_poster env s r).2.1) st

/-- A single route call never removes or changes an existing cache entry. -/
lemma poster_step_preserves (env : AppEnv) (st : AppState) (req : PosterRequest)
    (k : String) (b : Bytes) (h : st.cache k = some b) :
    ((get_processed_poster env st req).2.1).cache k = some b := by
  unfold get_processed_poster
  cases hc : st.cache req.poster_id with
  | some v => simpa [hc] using h
  | none =>
    cases hs : req.session with
    | none => simpa using h
    | some q =>
      dsimp only
      by_cases hid : q.poster_id = req.poster_id ∧ q.poster_url ≠ ""
      · rw [if_pos hid]
        cases hp : env.pipeline q.poster_url with
        | none => simpa [hp] using h
        | some img =>
          cases he : env.encode img with
          | none => simpa [hp, he] using h
          | some bs =>
            have hk : k ≠ req.poster_id := by
              intro hEq; rw [hEq, hc] at h; exact Option.noConfusion h
            simpa [hp, he, hk] using h
      · rw [if_neg hid]
        simpa using h

/-- Once written, a cache entry survives any sequence of further requests. -/
lemma runRequests_preserves (env : AppEnv) (k : String) (b : Bytes) :
    ∀ (reqs : List PosterRequest) (st : AppState), st.cache k = some b →
      (runRequests env st reqs).cache k = some b := by
  intro reqs
  induction reqs with
  | nil => intro st h; simpa [runRequests] using h
  | cons r rs ih =>
    intro st h
    simp only [runRequests, List.foldl_cons]
    exact ih ((get_processed_poster env st r).2.1) (poster_step_preserves env st r k b h)

/-- C1: if any stage of the pipeline (fetch, decode, detect, mask, inpaint)
fails, the failure is caught at the `detect_and_blur_text` boundary and the
operation falls back to re-fetching and returning the original unprocessed
raster; only if that re-fetch also fails does the operation fail (returning
`none`, the `PipelineError` signal); on the fallback path no processed
result is ever returned, and the function is total (no exception escapes). -/
theorem spec_C1 (env : PipelineEnv) (blur : Nat) :
    (pipelineBody env blur = none → detect_and_blur_text env blur = exceptFallback env) ∧
    (detect_and_blur_text env blur = none ↔
      pipelineBody env blur = none ∧ exceptFallback env = none) ∧
    (∀ r, pipelineBody env blur = some r → detect_and_blur_text env blur = some r) := by
  cases h : pipelineBody env blur with
  | none =>
    refine ⟨fun _ => ?_, ?_, fun r hr => absurd hr (by simp [h])⟩
    · simp [detect_and_blur_text, h]
    · simp [detect_and_blur_text, h]
  | some r =>
    refine ⟨fun hc => absurd hc (by simp [h]), ?_, fun r' hr' => ?_⟩
    · simp [detect_and_blur_text, h]
    · have hrr : r = r' := Option.some.inj hr'
      simp [detect_and_blur_text, h, hrr]

/-- C2: when every accepted-detection count is zero (no detection passes the
confidence threshold), the pipeline output is pixel-identical to the fetched
original raster, and the inpainting stage is skipped entirely (the result is
the same for every possible inpainter, even a failing one). -/
theorem spec_C2 (env : PipelineEnv) (blur : Nat) (bs : Bytes) (img : Raster)
    (dets : List Detection)
    (h1 : env.fetch = some bs) (h2 : env.decode bs = some img)
    (h3 : env.detect img = some dets)
    (h4 : (buildMask img.width img.height (3 / 10) dets).2 = 0) :
    detect_and_blur_text env blur = some img ∧
    ∀ f, detect_and_blur_text { env with inpaint := f } blur = some img := by
  have key : ∀ f, detect_and_blur_text { env with inpaint := f } blur = some img := by
    intro f
    unfold detect_and_blur_text pipelineBody
    simp [h1, h2, h3, h4]
  exact ⟨by simpa using key env.inpaint, key⟩

/-- C4: a detection with confidence ≤ t is discarded: the whole mask-building
result (mask and accepted count) over a detection list equals the result over
the list with sub-threshold detections removed; and raising the threshold
can only shrink or preserve the accepted set. -/
theorem spec_C4 (W H : Int) (t t' : Rat) (dets : List Detection) (h : t ≤ t') :
    buildMask W H t dets = buildMask W H t (dets.filter (acceptedDet t)) ∧
    ∀ d ∈ dets.filter (acceptedDet t'), d ∈ dets.filter (acceptedDet t) := by
  constructor
  · rw [buildMask, buildMask, foldl_maskStep_filter]
  · intro d hd
    rw [List.mem_filter] at hd ⊢
    refine ⟨hd.1, ?_⟩
    have h2 := hd.2
    simp only [acceptedDet, decide_eq_true_eq] at h2 ⊢
    exact lt_of_le_of_lt h h2

/-- C7: a pixel of the built mask is nonzero iff it lies inside at least one
accepted detection's rasterized rectangle (union semantics, overlaps merge),
and the accepted count equals the number of detections passing the
confidence filter even when rectangles overlap. -/
theorem spec_C7 (W H : Int) (t : Rat) (dets : List Detection) (x y : Int) :
    ((buildMask W H t dets).1 x y ≠ 0 ↔
      ∃ d ∈ dets, acceptedDet t d = true ∧
        fillsPixel W H (clampedRect W H d.quad) x y = true) ∧
    (buildMask W H t dets).2 = (dets.filter (acceptedDet t)).length := by
  constructor
  · rw [buildMask, foldl_maskStep_mask]
    by_cases h : dets.any
        (fun d => acceptedDet t d && fillsPixel W H (clampedRect W H d.quad) x y)
    · simp only [h, if_true]
      constructor
      · intro _
        rcases List.any_eq_true.mp h with ⟨d, hd, hpd⟩
        exact ⟨d, hd, by simpa [Bool.and_eq_true] using hpd⟩
      · intro _; omega
    · simp only [h, if_false]
      constructor
      · intro hz; exact absurd rfl hz
      · rintro ⟨d, hd, ha, hf⟩
        exact absurd (List.any_eq_true.mpr ⟨d, hd, (Bool.and_eq_true _ _).mpr ⟨ha, hf⟩⟩) h
  · rw [buildMask, foldl_maskStep_count]
    simp

/-- C9: the `blur_strength` argument has no influence on the result of
`detect_and_blur_text` (nor on the try-body, whose mask construction and
inpainting call never read it): any two values give identical outputs. -/
theorem spec_C9 (env : PipelineEnv) (b1 b2 : Nat) :
    detect_and_blur_text env b1 = detect_and_blur_text env b2 ∧
    pipelineBody env b1 = pipelineBody env b2 :=
  ⟨rfl, rfl⟩

/-- A quadrilateral lying entirely to the left of the image (all x-coordinates
negative), as `easyocr` can report for text clipped at the border. -/
def outsideQuad : Quad := ⟨(-10, 2), (-8, 2), (-10, 4), (-8, 4)⟩

/-- C3 counterexample: for the quadrilateral with all x-coordinates negative
and a 100×100 image, the clamped rectangle computed by lines 71-82 has
`x_min = 0 > x_max = -3`, so the claimed invariant `x_min ≤ x_max` is false. -/
theorem spec_C3_cex :
    ¬ ((clampedRect 100 100 outsideQuad).xMin ≤ (clampedRect 100 100 outsideQuad).xMax) := by
  decide

/-- C3 amended: whenever the quadrilateral's bounding box meets the closed
image extent (its max coordinate on each axis is ≥ 0 and its min coordinate
is ≤ the image size) and the image dimensions are nonnegative, the padded
clamped rectangle satisfies `0 ≤ x_min ≤ x_max ≤ width` and
`0 ≤ y_min ≤ y_max ≤ height`; moreover, unconditionally, every pixel
actually rasterized into the mask lies within `[0,width) × [0,height)`. -/
theorem spec_C3_amended (W H : Int) (q : Quad)
    (hW : 0 ≤ W) (hH : 0 ≤ H)
    (hx0 : 0 ≤ q.xHi) (hx1 : q.xLo ≤ W) (hy0 : 0 ≤ q.yHi) (hy1 : q.yLo ≤ H) :
    (0 ≤ (clampedRect W H q).xMin ∧ (clampedRect W H q).xMin ≤ (clampedRect W H q).xMax ∧
      (clampedRect W H q).xMax ≤ W ∧
     0 ≤ (clampedRect W H q).yMin ∧ (clampedRect W H q).yMin ≤ (clampedRect W H q).yMax ∧
      (clampedRect W H q).yMax ≤ H) ∧
    ∀ (r : Rect) (x y : Int), fillsPixel W H r x y = true →
      0 ≤ x ∧ x < W ∧ 0 ≤ y ∧ y < H := by
  constructor
  · have hq1 : q.xLo ≤ q.xHi := by
      simp only [Quad.xLo, Quad.xHi]
      omega
    have hq2 : q.yLo ≤ q.yHi := by
      simp only [Quad.yLo, Quad.yHi]
      omega
    simp only [clampedRect]
    omega
  · intro r x y hf
    simp only [fillsPixel, Bool.and_eq_true, decide_eq_true_eq] at hf
    omega

/-- C5: on a cache hit the route returns the stored bytes immediately, leaves
the state untouched, and invokes the processing pipeline (network fetch, OCR
detection, inpainting) zero times. -/
theorem spec_C5 (env : AppEnv) (st : AppState) (req : PosterRequest) (b : Bytes)
    (h : st.cache req.poster_id = some b) :
    get_processed_poster env st req = (.sendFile b, st, 0) := by
  unfold get_processed_poster
  rw [h]

/-- C6: the cache namespace is append-only over every sequence of requests:
a call whose requested key is already cached changes nothing at all, and an
entry, once present, is never rewritten, mutated, or deleted by any later
sequence of route calls. -/
theorem spec_C6 (env : AppEnv) (st : AppState) (k : String) (b : Bytes)
    (reqs : List PosterRequest) (h : st.cache k = some b) :
    (∀ req v, st.cache req.poster_id = some v →
      (get_processed_poster env st req).2.1 = st) ∧
    (runRequests env st reqs).cache k = some b := by
  constructor
  · intro req v hv
    unfold get_processed_poster
    rw [hv]
  · exact runRequests_preserves env k b reqs st h

/-- C8: the (spec-modelled) Telea inpainting returns a raster of identical
dimensions whose pixels outside the mask are exactly equal to the input;
only masked pixels may differ. -/
theorem spec_C8 (img : Raster) (mask : Int → Int → Nat) (radius : Nat) :
    (inpaintTelea img mask radius).width = img.width ∧
    (inpaintTelea img mask radius).height = img.height ∧
    ∀ x y, mask x y = 0 → (inpaintTelea img mask radius).pix x y = img.pix x y := by
  refine ⟨rfl, rfl, ?_⟩
  intro x y h
  simp [inpaintTelea, h]

/-- C10: `save_processed_image` with a `None` image returns `False` and
performs no filesystem write (the state is returned unchanged: no directory
created, no file written); and it returns `True` only when the encoder
succeeded and the written file exists in the resulting filesystem. -/
theorem spec_C10 (env : SaveEnv) (fs : FS) (output_path : String) :
    save_processed_image env fs none output_path = (false, fs) ∧
    ∀ (img : Raster) (res : Bool × FS),
      save_processed_image env fs (some img) output_path = res → res.1 = true →
        (∃ bs, env.imwrite output_path img = some bs) ∧
        res.2.files output_path ≠ none := by
  constructor
  · rfl
  · intro img res hres htrue
    cases he : env.imwrite output_path img with
    | none =>
      simp only [save_processed_image, he] at hres
      rw [← hres] at htrue
      exact absurd htrue (by simp)
    | some bs =>
      simp only [save_processed_image, he] at hres
      refine ⟨⟨bs, rfl⟩, ?_⟩
      rw [← hres]
      simp

/-- A small concrete raster for instantiating the theorems. -/
def wRaster : Raster := { width := 8, height := 8, pix := fun _ _ => 3 }

/-- A concrete decoder recognizing exactly the bytes `[2]`. -/
def wDecode : Bytes → Option Raster := fun bs => if bs = [2] then some wRaster else none

/-- Environment whose first fetch raises but whose fallback re-fetch works. -/
def envFetchFail : PipelineEnv :=
  { fetch := none, decode := wDecode, detect := fun _ => none,
    inpaint := fun _ _ _ => none, refetch := some [2] }

/-- Environment in which every stage succeeds and OCR finds no text. -/
def envAllOk : PipelineEnv :=
  { fetch := some [2], decode := wDecode, detect := fun _ => some [],
    inpaint := fun _ _ _ => none, refetch := none }

/-- C1 witness: with a failing first fetch the operation returns the
fallback value, and with an all-successful run the body result is passed
through. -/
theorem spec_C1_witness :
    detect_and_blur_text envFetchFail 25 = exceptFallback envFetchFail ∧
    detect_and_blur_text envAllOk 25 = some wRaster :=
  ⟨(spec_C1 envFetchFail 25).1 rfl, (spec_C1 envAllOk 25).2.2 wRaster rfl⟩

/-- A detection whose confidence 0.2 is below the 0.3 threshold. -/
def lowDet : Detection :=
  { quad := ⟨(1, 1), (4, 1), (4, 4), (1, 4)⟩, text := "low", confidence := 1 / 5 }

/-- Environment that succeeds and reports one sub-threshold detection. -/
def envLowConf : PipelineEnv :=
  { fetch := some [2], decode := wDecode, detect := fun _ => some [lowDet],
    inpaint := fun _ _ _ => none, refetch := none }

/-- C2 witness: with one rejected detection the original raster comes back,
even under an inpainter that would fail if invoked. -/
theorem spec_C2_witness :
    detect_and_blur_text envLowConf 25 = some wRaster ∧
    detect_and_blur_text { envLowConf with inpaint := fun _ _ _ => none } 25 = some wRaster :=
  ⟨(spec_C2 envLowConf 25 [2] wRaster [lowDet] rfl rfl rfl
      (by norm_num [buildMask, maskStep, acceptedDet, lowDet])).1,
   (spec_C2 envLowConf 25 [2] wRaster [lowDet] rfl rfl rfl
      (by norm_num [buildMask, maskStep, acceptedDet, lowDet])).2 (fun _ _ _ => none)⟩

/-- An in-bounds quadrilateral with confidence irrelevant to C3. -/
def insideQuad : Quad := ⟨(10, 10), (110, 10), (110, 40), (10, 40)⟩

/-- C3 witness: for a quadrilateral meeting the image extent of a 200×100
image the amended invariant holds, and the pixel (7, 7) filled by its
rectangle lies inside the image. -/
theorem spec_C3_witness :
    (0 ≤ (clampedRect 200 100 insideQuad).xMin ∧
      (clampedRect 200 100 insideQuad).xMin ≤ (clampedRect 200 100 insideQuad).xMax ∧
      (clampedRect 200 100 insideQuad).xMax ≤ 200 ∧
     0 ≤ (clampedRect 200 100 insideQuad).yMin ∧
      (clampedRect 200 100 insideQuad).yMin ≤ (clampedRect 200 100 insideQuad).yMax ∧
      (clampedRect 200 100 insideQuad).yMax ≤ 100) ∧
    (0 ≤ (7 : Int) ∧ (7 : Int) < 200 ∧ 0 ≤ (7 : Int) ∧ (7 : Int) < 100) :=
  ⟨(spec_C3_amended 200 100 insideQuad (by decide) (by decide) (by decide) (by decide)
      (by decide) (by decide)).1,
   (spec_C3_amended 200 100 insideQuad (by decide) (by decide) (by decide) (by decide)
      (by decide) (by decide)).2 (clampedRect 200 100 insideQuad) 7 7 (by decide)⟩

/-- C4 witness: at thresholds 0.25 ≤ 0.5 with one concrete detection list. -/
theorem spec_C4_witness :
    (buildMask 8 8 (1 / 4) [lowDet] = buildMask 8 8 (1 / 4) ([lowDet].filter (acceptedDet (1 / 4)))) ∧
    ∀ d ∈ [lowDet].filter (acceptedDet (1 / 2)), d ∈ [lowDet].filter (acceptedDet (1 / 4)) :=
  spec_C4 8 8 (1 / 4) (1 / 2) [lowDet] (by norm_num)

/-- Concrete cached bytes and a state whose cache holds them under "p1". -/
def cachedBytes : Bytes := [9, 9]

/-- A state with one pre-populated cache entry. -/
def stCached : AppState := { cache := fun k => if k = "p1" then some cachedBytes else none }

/-- A request for the cached poster, with no session. -/
def reqP1 : PosterRequest := { session := none, poster_id := "p1" }

/-- Collaborators that would fail if the route did any processing work. -/
def envApp : AppEnv := { pipeline := fun _ => none, encode := fun _ => none }

/-- C5 witness: a pre-populated entry is served as-is with zero pipeline
invocations. -/
theorem spec_C5_witness :
    get_processed_poster envApp stCached reqP1 = (.sendFile cachedBytes, stCached, 0) :=
  spec_C5 envApp stCached reqP1 cachedBytes (by simp [stCached, reqP1])

/-- C6 witness: a cache-hit call leaves the state untouched, and the entry
survives two further requests. -/
theorem spec_C6_witness :
    (get_processed_poster envApp stCached reqP1).2.1 = stCached ∧
    (runRequests envApp stCached [reqP1, reqP1]).cache "p1" = some cachedBytes :=
  ⟨(spec_C6 envApp stCached "p1" cachedBytes [reqP1, reqP1]
      (by simp [stCached])).1 reqP1 cachedBytes (by simp [stCached, reqP1]),
   (spec_C6 envApp stCached "p1" cachedBytes [reqP1, reqP1] (by simp [stCached])).2⟩

/-- A mask that marks nothing. -/
def zeroMask : Int → Int → Nat := fun _ _ => 0

/-- C8 witness: with an empty mask, pixel (2, 2) passes through unchanged. -/
theorem spec_C8_witness :
    (inpaintTelea wRaster zeroMask 7).pix 2 2 = wRaster.pix 2 2 :=
  (spec_C8 wRaster zeroMask 7).2.2 2 2 rfl

/-- An initially empty filesystem. -/
def emptyFS : FS := { dirs := [], files := fun _ => none }

/-- An encoder that always succeeds. -/
def wSaveEnv : SaveEnv := { imwrite := fun _ img => some [img.pix 0 0] }

/-- The cache path used in the C10 witness. -/
def wPath : String := "static/processed_images/p1.jpg"

/-- C10 witness: saving `None` changes nothing and returns `False`; saving a
real raster through a succeeding encoder leaves the file on disk. -/
theorem spec_C10_witness :
    save_processed_image wSaveEnv emptyFS none wPath = (false, emptyFS) ∧
    ((∃ bs, wSaveEnv.imwrite wPath wRaster = some bs) ∧
      (save_processed_image wSaveEnv emptyFS (some wRaster) wPath).2.files wPath ≠ none) :=
  ⟨(spec_C10 wSaveEnv emptyFS wPath).1,
   (spec_C10 wSaveEnv emptyFS wPath).2 wRaster
     (save_processed_image wSaveEnv emptyFS (some wRaster) wPath) rfl rfl⟩
